import Mathlib

/-!
Shallow embedding of the math2d 2D geometry library's core: the affine
matrix `Matrix3x2f` (src/matrix3x2f.rs), points and vectors
(src/point2f.rs, src/vector2f.rs), rectangles (src/rectf.rs), ellipses
(src/ellipse.rs) and rounded rectangles (src/rounded_rect.rs).

The Rust code computes over `f32`; the embedding interprets the numeric
type as an arbitrary linear ordered field (instantiated at `ℚ` for
executable witnesses and at `ℝ` for the operations that use `cos`, `sin`,
`sqrt` and `atan2`).  Each definition mirrors the corresponding Rust
function field-for-field and branch-for-branch.
-/

/-- Mathematical point on the 2D (x, y) plane (src/point2f.rs). -/
structure Point2f (α : Type) where
  x : α
  y : α
deriving DecidableEq

/-- Mathematical vector on the 2D (x, y) plane (src/vector2f.rs). -/
structure Vector2f (α : Type) where
  x : α
  y : α
deriving DecidableEq

/-- 2D affine transformation matrix (src/matrix3x2f.rs).  Represents the
3×3 homogeneous matrix `[[a b 0] [c d 0] [x y 1]]`. -/
structure Matrix3x2f (α : Type) where
  a : α
  b : α
  c : α
  d : α
  x : α
  y : α
deriving DecidableEq

/-- Axis-aligned rectangle defined by the lines of its 4 edges
(src/rectf.rs). -/
structure Rectf (α : Type) where
  left : α
  top : α
  right : α
  bottom : α
deriving DecidableEq

/-- A corner of a rectangle (src/rectf.rs `RectCorner`). -/
inductive RectCorner where
  | TopLeft
  | TopRight
  | BottomLeft
  | BottomRight
deriving DecidableEq

/-- Axis-aligned ellipse: center point plus x and y radii
(src/ellipse.rs). -/
structure Ellipse (α : Type) where
  center : Point2f α
  radius_x : α
  radius_y : α
deriving DecidableEq

/-- Rectangle with rounded corners described by corner ellipses
(src/rounded_rect.rs). -/
structure RoundedRect (α : Type) where
  rect : Rectf α
  radius_x : α
  radius_y : α
deriving DecidableEq

/-- Result of `Matrix3x2f::decompose` (src/matrix3x2f.rs `Decomposition`). -/
structure Decomposition (α : Type) where
  scaling : Vector2f α
  rotation : α
  translation : Vector2f α

variable {α : Type} [LinearOrderedField α]

/-- `std::f32::EPSILON`, the machine epsilon of `f32`, exactly `2⁻²³`. -/
def f32_EPSILON (α : Type) [LinearOrderedField α] : α := 1 / 2 ^ 23

namespace Point2f

/-- `impl Add<Vector2f> for Point2f` (src/point2f.rs). -/
def add (p : Point2f α) (v : Vector2f α) : Point2f α :=
  ⟨p.x + v.x, p.y + v.y⟩

/-- `impl Sub for Point2f` (src/point2f.rs): point difference is a vector. -/
def sub (p q : Point2f α) : Vector2f α :=
  ⟨p.x - q.x, p.y - q.y⟩

/-- `impl Mul<Matrix3x2f> for Point2f` (src/matrix3x2f.rs lines 370-380). -/
def mulMatrix (p : Point2f α) (m : Matrix3x2f α) : Point2f α :=
  ⟨p.x * m.a + p.y * m.c + m.x, p.x * m.b + p.y * m.d + m.y⟩

end Point2f

namespace Vector2f

/-- `Vector2f::abs` (src/vector2f.rs): component-wise absolute value. -/
def abs (v : Vector2f α) : Vector2f α :=
  ⟨|v.x|, |v.y|⟩

/-- `impl Mul<Matrix3x2f> for Vector2f` (src/matrix3x2f.rs lines 382-392):
no translation is applied. -/
def mulMatrix (v : Vector2f α) (m : Matrix3x2f α) : Vector2f α :=
  ⟨v.x * m.a + v.y * m.c, v.x * m.b + v.y * m.d⟩

end Vector2f

namespace Matrix3x2f

/-- `Matrix3x2f::IDENTITY` (src/matrix3x2f.rs). -/
def IDENTITY : Matrix3x2f α := ⟨1, 0, 0, 1, 0, 0⟩

/-- `Matrix3x2f::determinant` (src/matrix3x2f.rs): `a * d - b * c`. -/
def determinant (m : Matrix3x2f α) : α :=
  m.a * m.d - m.b * m.c

/-- `Matrix3x2f::det_shows_invertible` (src/matrix3x2f.rs lines 346-349):
`det.abs() > EPSILON`. -/
def det_shows_invertible (det : α) : Prop :=
  f32_EPSILON α < |det|

instance (det : α) : Decidable (det_shows_invertible det) := by
  unfold det_shows_invertible; infer_instance

/-- `Matrix3x2f::is_invertible` (src/matrix3x2f.rs). -/
def is_invertible (m : Matrix3x2f α) : Prop :=
  det_shows_invertible m.determinant

/-- `Matrix3x2f::unchecked_inverse` (src/matrix3x2f.rs lines 241-254). -/
def unchecked_inverse (m : Matrix3x2f α) (det : α) : Matrix3x2f α :=
  { a := m.d / det
    b := m.b / -det
    c := m.c / -det
    d := m.a / det
    x := (m.d * m.x - m.c * m.y) / -det
    y := (m.b * m.x - m.a * m.y) / det }

/-- `Matrix3x2f::inverse` (src/matrix3x2f.rs lines 220-227); the
`assert!(det_shows_invertible(det))` panic is modelled as `Except.error`. -/
def inverse (m : Matrix3x2f α) : Except String (Matrix3x2f α) :=
  if det_shows_invertible m.determinant then
    Except.ok (m.unchecked_inverse m.determinant)
  else
    Except.error "assertion failed: Matrix3x2f::det_shows_invertible(det)"

/-- `Matrix3x2f::try_inverse` (src/matrix3x2f.rs lines 229-239). -/
def try_inverse (m : Matrix3x2f α) : Option (Matrix3x2f α) :=
  if det_shows_invertible m.determinant then
    some (m.unchecked_inverse m.determinant)
  else
    none

/-- `impl Mul for Matrix3x2f` (src/matrix3x2f.rs lines 352-368). -/
def mul (lhs rhs : Matrix3x2f α) : Matrix3x2f α :=
  { a := lhs.a * rhs.a + lhs.b * rhs.c
    b := lhs.a * rhs.b + lhs.b * rhs.d
    c := lhs.c * rhs.a + lhs.d * rhs.c
    d := lhs.c * rhs.b + lhs.d * rhs.d
    x := lhs.x * rhs.a + lhs.y * rhs.c + rhs.x
    y := lhs.x * rhs.b + lhs.y * rhs.d + rhs.y }

/-- `Matrix3x2f::transform_point` (src/matrix3x2f.rs lines 293-298):
`point * matrix`. -/
def transform_point (m : Matrix3x2f α) (point : Point2f α) : Point2f α :=
  point.mulMatrix m

/-- `Matrix3x2f::transform_vector` (src/matrix3x2f.rs lines 300-305):
`vec * matrix`. -/
def transform_vector (m : Matrix3x2f α) (vec : Vector2f α) : Vector2f α :=
  vec.mulMatrix m

/-- `Matrix3x2f::is_approx_eq` (src/matrix3x2f.rs lines 329-338): all six
components within `epsilon`, strictly. -/
def is_approx_eq (m other : Matrix3x2f α) (epsilon : α) : Prop :=
  |m.a - other.a| < epsilon ∧ |m.b - other.b| < epsilon ∧
  |m.c - other.c| < epsilon ∧ |m.d - other.d| < epsilon ∧
  |m.x - other.x| < epsilon ∧ |m.y - other.y| < epsilon

end Matrix3x2f

namespace Rectf

/-- `Rectf::contains_point` (src/rectf.rs lines 182-190). -/
def contains_point (r : Rectf α) (point : Point2f α) : Prop :=
  r.left ≤ point.x ∧ r.top ≤ point.y ∧ point.x ≤ r.right ∧ point.y ≤ r.bottom

instance (r : Rectf α) (p : Point2f α) : Decidable (r.contains_point p) := by
  unfold contains_point; infer_instance

/-- `Rectf::normalized` (src/rectf.rs lines 192-202), exactly as written in
the source: note the `right` component is `self.left.max(self.top)`. -/
def normalized (r : Rectf α) : Rectf α :=
  { left := min r.left r.right
    top := min r.top r.bottom
    right := max r.left r.top
    bottom := max r.top r.bottom }

/-- `Rectf::center` (src/rectf.rs). -/
def center (r : Rectf α) : Point2f α :=
  ⟨(r.left + r.right) / 2, (r.top + r.bottom) / 2⟩

/-- `Rectf::corner` (src/rectf.rs). -/
def corner (r : Rectf α) (c : RectCorner) : Point2f α :=
  match c with
  | RectCorner.TopLeft => ⟨r.left, r.top⟩
  | RectCorner.TopRight => ⟨r.right, r.top⟩
  | RectCorner.BottomLeft => ⟨r.left, r.bottom⟩
  | RectCorner.BottomRight => ⟨r.right, r.bottom⟩

end Rectf

namespace Ellipse

/-- `Ellipse::contains_point` (src/ellipse.rs lines 33-45). -/
def contains_point (e : Ellipse α) (point : Point2f α) : Prop :=
  (point.x - e.center.x) * (point.x - e.center.x) /
      (e.radius_x * e.radius_x) +
    (point.y - e.center.y) * (point.y - e.center.y) /
      (e.radius_y * e.radius_y) ≤ 1

instance (e : Ellipse α) (p : Point2f α) : Decidable (e.contains_point p) := by
  unfold contains_point; infer_instance

/-- `Ellipse::contains_point_transformed` (src/ellipse.rs lines 51-64):
maps the point through `transform.try_inverse()` and re-tests; `false`
when the matrix is not invertible. -/
def contains_point_transformed (e : Ellipse α) (transform : Matrix3x2f α)
    (point : Point2f α) : Prop :=
  match transform.try_inverse with
  | some inverse => e.contains_point (point.mulMatrix inverse)
  | none => False

end Ellipse

namespace RoundedRect

/-- `RoundedRect::corner_ellipse` (src/rounded_rect.rs lines 39-55). -/
def corner_ellipse (r : RoundedRect α) (corner : RectCorner) : Ellipse α :=
  { center :=
      match corner with
      | RectCorner.TopLeft =>
        (r.rect.corner corner).add ⟨r.radius_x, r.radius_y⟩
      | RectCorner.TopRight =>
        (r.rect.corner corner).add ⟨-r.radius_x, r.radius_y⟩
      | RectCorner.BottomLeft =>
        (r.rect.corner corner).add ⟨r.radius_x, -r.radius_y⟩
      | RectCorner.BottomRight =>
        (r.rect.corner corner).add ⟨-r.radius_x, -r.radius_y⟩
    radius_x := r.radius_x
    radius_y := r.radius_y }

/-- The reflected point `rpoint = center + (point - center).abs()` computed
inside `RoundedRect::contains_point` (src/rounded_rect.rs line 69). -/
def rpoint (r : RoundedRect α) (point : Point2f α) : Point2f α :=
  r.rect.center.add ((point.sub r.rect.center).abs)

/-- `RoundedRect::contains_point` (src/rounded_rect.rs lines 61-77): early
`false` when outside the outer rectangle; `true` when the reflected point
is within the straight span on either axis; otherwise the bottom-right
corner ellipse decides. -/
def contains_point (r : RoundedRect α) (point : Point2f α) : Prop :=
  r.rect.contains_point point ∧
    ((r.rpoint point).x ≤ (r.corner_ellipse RectCorner.BottomRight).center.x ∨
      (r.rpoint point).y ≤ (r.corner_ellipse RectCorner.BottomRight).center.y ∨
      (r.corner_ellipse RectCorner.BottomRight).contains_point (r.rpoint point))

instance (r : RoundedRect α) (p : Point2f α) :
    Decidable (r.contains_point p) := by
  unfold contains_point; infer_instance

/-- `RoundedRect::contains_point_crude` (src/rounded_rect.rs lines 84-86). -/
def contains_point_crude (r : RoundedRect α) (point : Point2f α) : Prop :=
  r.rect.contains_point point

instance (r : RoundedRect α) (p : Point2f α) :
    Decidable (r.contains_point_crude p) := by
  unfold contains_point_crude; infer_instance

end RoundedRect

noncomputable section

/-- `f32::atan2(self, other)` as used by `Matrix3x2f::decompose`
(src/matrix3x2f.rs line 289): the angle of the point `(x, y)` in `(-π, π]`,
modelled by the complex argument of `x + y·i`. -/
def atan2 (y x : ℝ) : ℝ :=
  Complex.arg (x + y * Complex.I)

/-- `Matrix3x2f::rotation` (src/matrix3x2f.rs lines 166-179), exactly as
written in the source, translation terms included. -/
def Matrix3x2f.rotation (angle : ℝ) (center : Point2f ℝ) : Matrix3x2f ℝ :=
  { a := Real.cos angle
    b := Real.sin angle
    c := -Real.sin angle
    d := Real.cos angle
    x := center.x - Real.cos angle * center.x - Real.sin angle * center.y
    y := center.y - Real.cos angle * center.y - Real.sin angle * center.x }

/-- `Matrix3x2f::compose` (src/matrix3x2f.rs lines 256-277). -/
def Matrix3x2f.compose (scaling : Vector2f ℝ) (rotation : ℝ)
    (translation : Vector2f ℝ) : Matrix3x2f ℝ :=
  { a := scaling.x * Real.cos rotation
    b := scaling.y * Real.sin rotation
    c := scaling.x * -Real.sin rotation
    d := scaling.y * Real.cos rotation
    x := translation.x
    y := translation.y }

/-- `Matrix3x2f::decompose` (src/matrix3x2f.rs lines 279-291). -/
def Matrix3x2f.decompose (m : Matrix3x2f ℝ) : Decomposition ℝ :=
  { translation := ⟨m.x, m.y⟩
    scaling := ⟨Real.sqrt (m.a * m.a + m.c * m.c),
                Real.sqrt (m.b * m.b + m.d * m.d)⟩
    rotation := atan2 m.b m.d }

end

section Helpers

variable {α : Type} [LinearOrderedField α]

/-- `try_inverse` takes the `None` branch exactly when the determinant test
fails. -/
theorem Matrix3x2f.try_inverse_eq_none_iff (m : Matrix3x2f α) :
    m.try_inverse = none ↔ ¬ Matrix3x2f.det_shows_invertible m.determinant := by
  unfold Matrix3x2f.try_inverse
  split <;> simp_all

/-- `try_inverse` on an invertible matrix returns the unchecked inverse. -/
theorem Matrix3x2f.try_inverse_eq_some (m : Matrix3x2f α)
    (h : Matrix3x2f.det_shows_invertible m.determinant) :
    m.try_inverse = some (m.unchecked_inverse m.determinant) := by
  simp [Matrix3x2f.try_inverse, h]

/-- The components of `unchecked_inverse`, with the divisions by `-det`
rewritten as negated numerators. -/
theorem Matrix3x2f.unchecked_inverse_components (m : Matrix3x2f α) (det : α) :
    m.unchecked_inverse det =
      ⟨m.d / det, -m.b / det, -m.c / det, m.a / det,
        (m.d * m.x - m.c * m.y) / -det, (m.b * m.x - m.a * m.y) / det⟩ := by
  simp only [Matrix3x2f.unchecked_inverse, div_neg, neg_div]

/-- The machine epsilon is positive in the embedding field. -/
theorem f32_EPSILON_pos : (0 : α) < f32_EPSILON α := by
  unfold f32_EPSILON
  positivity

end Helpers

/-- C6: for every matrix `m`, point `p` and vector `v`,
`m.transform_point p` equals `p * m` which equals
`(p.x*a + p.y*c + x, p.x*b + p.y*d + y)`, and `m.transform_vector v`
equals `v * m` which equals `(v.x*a + v.y*c, v.x*b + v.y*d)`; the vector
transform ignores the translation fields `x` and `y` of the matrix. -/
theorem claim_C6_transform_point_vector {α : Type} [LinearOrderedField α]
    (m : Matrix3x2f α) (p : Point2f α) (v : Vector2f α) (x' y' : α) :
    m.transform_point p = p.mulMatrix m ∧
    p.mulMatrix m =
      ⟨p.x * m.a + p.y * m.c + m.x, p.x * m.b + p.y * m.d + m.y⟩ ∧
    m.transform_vector v = v.mulMatrix m ∧
    v.mulMatrix m = ⟨v.x * m.a + v.y * m.c, v.x * m.b + v.y * m.d⟩ ∧
    v.mulMatrix { m with x := x', y := y' } = v.mulMatrix m :=
  ⟨rfl, rfl, rfl, rfl, rfl⟩

/-- C2: refuted as stated.  `Rectf::normalized` computes its `right`
component as `max left top` (a slip for `max left right`), so on the
already-normalized rectangle `(left 0, top 0, right 3, bottom 3)` the
result's `right` edge is `0`, not `max 0 3 = 3`. -/
theorem claim_C2_normalized_right_bug :
    Rectf.normalized (⟨0, 0, 3, 3⟩ : Rectf ℚ) = ⟨0, 0, 0, 3⟩ ∧
    (Rectf.normalized (⟨0, 0, 3, 3⟩ : Rectf ℚ)).right ≠
      max (⟨0, 0, 3, 3⟩ : Rectf ℚ).left (⟨0, 0, 3, 3⟩ : Rectf ℚ).right := by
  constructor
  · decide
  · decide

/-- C9: for every rounded rectangle `r` and point `p`, the precise test
`r.contains_point p` implies the crude outer-rectangle test
`r.contains_point_crude p`, for all inputs including un-normalized
rectangles and negative or zero radii. -/
theorem claim_C9_precise_subset_crude {α : Type} [LinearOrderedField α]
    (r : RoundedRect α) (p : Point2f α) (h : r.contains_point p) :
    r.contains_point_crude p :=
  h.1

/-- C9 witness: at the rounded rectangle `((0,0,2,2), 0.5, 0.25)` and the
point `(1,1)`, the precise test holds and the theorem yields the crude
test. -/
theorem claim_C9_precise_subset_crude_witness :
    (⟨⟨0, 0, 2, 2⟩, 1/2, 1/4⟩ : RoundedRect ℚ).contains_point ⟨1, 1⟩ ∧
    (⟨⟨0, 0, 2, 2⟩, 1/2, 1/4⟩ : RoundedRect ℚ).contains_point_crude ⟨1, 1⟩ := by
  have h : (⟨⟨0, 0, 2, 2⟩, 1/2, 1/4⟩ : RoundedRect ℚ).contains_point ⟨1, 1⟩ := by
    refine ⟨⟨by norm_num, by norm_num, by norm_num, by norm_num⟩, Or.inl ?_⟩
    norm_num [RoundedRect.rpoint, RoundedRect.corner_ellipse, Rectf.center,
      Rectf.corner, Point2f.add, Point2f.sub, Vector2f.abs]
  exact ⟨h, claim_C9_precise_subset_crude _ _ h⟩

/-- C3: `try_inverse` returns `none` iff `|det| ≤ f32::EPSILON`, `inverse`
fails (its assertion, modelled as `Except.error`) under exactly the same
condition, and when both succeed they return the same inverse matrix with
components `a'=d/det, b'=-b/det, c'=-c/det, d'=a/det,
x'=(d*x - c*y)/(-det), y'=(b*x - a*y)/det`. -/
theorem claim_C3_inverse_try_inverse_agree {α : Type} [LinearOrderedField α]
    (m : Matrix3x2f α) :
    (m.try_inverse = none ↔ |m.determinant| ≤ f32_EPSILON α) ∧
    ((∃ e, m.inverse = Except.error e) ↔ m.try_inverse = none) ∧
    (f32_EPSILON α < |m.determinant| →
      m.try_inverse = some
        ⟨m.d / m.determinant, -m.b / m.determinant, -m.c / m.determinant,
          m.a / m.determinant,
          (m.d * m.x - m.c * m.y) / -m.determinant,
          (m.b * m.x - m.a * m.y) / m.determinant⟩ ∧
      m.inverse = Except.ok
        ⟨m.d / m.determinant, -m.b / m.determinant, -m.c / m.determinant,
          m.a / m.determinant,
          (m.d * m.x - m.c * m.y) / -m.determinant,
          (m.b * m.x - m.a * m.y) / m.determinant⟩) := by
  refine ⟨?_, ?_, ?_⟩
  · rw [Matrix3x2f.try_inverse_eq_none_iff, Matrix3x2f.det_shows_invertible,
      not_lt]
  · by_cases h : Matrix3x2f.det_shows_invertible m.determinant
    · simp [Matrix3x2f.inverse, Matrix3x2f.try_inverse, h]
    · simp [Matrix3x2f.inverse, Matrix3x2f.try_inverse, h]
  · intro h
    have hdet : Matrix3x2f.det_shows_invertible m.determinant := h
    rw [Matrix3x2f.try_inverse_eq_some m hdet,
      Matrix3x2f.unchecked_inverse_components]
    constructor
    · rfl
    · simp [Matrix3x2f.inverse, hdet, Matrix3x2f.unchecked_inverse_components]

/-- C3 witness: at the rational matrix `(a 2, b 0, c 0, d 1, x 3, y 4)`
with determinant `2`, the hypothesis `f32::EPSILON < |det|` holds and
`try_inverse` returns the stated components. -/
theorem claim_C3_inverse_try_inverse_agree_witness :
    f32_EPSILON ℚ < |(⟨2, 0, 0, 1, 3, 4⟩ : Matrix3x2f ℚ).determinant| ∧
    (⟨2, 0, 0, 1, 3, 4⟩ : Matrix3x2f ℚ).try_inverse =
      some ⟨1/2, 0, 0, 1, -3/2, -4⟩ := by
  have hdet : f32_EPSILON ℚ <
      |(⟨2, 0, 0, 1, 3, 4⟩ : Matrix3x2f ℚ).determinant| := by
    norm_num [f32_EPSILON, Matrix3x2f.determinant]
  refine ⟨hdet, ?_⟩
  have h := (claim_C3_inverse_try_inverse_agree
    (⟨2, 0, 0, 1, 3, 4⟩ : Matrix3x2f ℚ)).2.2 hdet
  rw [h.1]
  simp only [Option.some.injEq, Matrix3x2f.mk.injEq]
  norm_num [Matrix3x2f.determinant]

/-- C4: for every matrix `M` with `|det(M)| > f32::EPSILON`, `inverse`
succeeds and `M * M.inverse()` is the identity matrix up to any positive
epsilon: all six components of the product are within epsilon of the
identity components (`a=1, d=1, b=c=x=y=0`). -/
theorem claim_C4_mul_inverse_approx_identity {α : Type}
    [LinearOrderedField α] (m : Matrix3x2f α) (ε : α)
    (h : Matrix3x2f.det_shows_invertible m.determinant) (hε : 0 < ε) :
    m.inverse = Except.ok (m.unchecked_inverse m.determinant) ∧
    (m.mul (m.unchecked_inverse m.determinant)).is_approx_eq
      Matrix3x2f.IDENTITY ε := by
  have hne : m.determinant ≠ 0 := by
    intro h0
    rw [Matrix3x2f.det_shows_invertible, h0, abs_zero] at h
    exact absurd h (not_lt.mpr (f32_EPSILON_pos (α := α)).le)
  constructor
  · simp [Matrix3x2f.inverse, h]
  · have key : ∀ D : α, D ≠ 0 → D = m.a * m.d - m.b * m.c →
        m.mul (m.unchecked_inverse D) = Matrix3x2f.IDENTITY := by
      intro D hD0 hD
      unfold Matrix3x2f.mul Matrix3x2f.unchecked_inverse Matrix3x2f.IDENTITY
      congr 1 <;> field_simp [hD0] <;> rw [hD] <;> ring
    rw [key m.determinant hne rfl]
    exact ⟨by simpa using hε, by simpa using hε, by simpa using hε,
      by simpa using hε, by simpa using hε, by simpa using hε⟩

/-- C4 witness: the rational matrix `(a 2, b 0, c 0, d 1, x 3, y 4)` has
determinant `2 > f32::EPSILON`, and its product with its inverse is within
`1/1000` of the identity. -/
theorem claim_C4_mul_inverse_approx_identity_witness :
    Matrix3x2f.det_shows_invertible
      (⟨2, 0, 0, 1, 3, 4⟩ : Matrix3x2f ℚ).determinant ∧
    (0 : ℚ) < 1/1000 ∧
    ((⟨2, 0, 0, 1, 3, 4⟩ : Matrix3x2f ℚ).mul
        ((⟨2, 0, 0, 1, 3, 4⟩ : Matrix3x2f ℚ).unchecked_inverse
          (⟨2, 0, 0, 1, 3, 4⟩ : Matrix3x2f ℚ).determinant)).is_approx_eq
      Matrix3x2f.IDENTITY (1/1000) := by
  have hdet : Matrix3x2f.det_shows_invertible
      (⟨2, 0, 0, 1, 3, 4⟩ : Matrix3x2f ℚ).determinant := by
    rw [Matrix3x2f.det_shows_invertible]
    norm_num [f32_EPSILON, Matrix3x2f.determinant]
  have hε : (0 : ℚ) < 1/1000 := by norm_num
  exact ⟨hdet, hε,
    (claim_C4_mul_inverse_approx_identity _ _ hdet hε).2⟩

/-- C7: `contains_point_transformed` returns `false` (rather than failing)
whenever the matrix is not invertible, and otherwise tests
`contains_point` on the point mapped through the inverse matrix, where
`contains_point q` holds iff
`(qx-cx)²/rx² + (qy-cy)²/ry² ≤ 1`. -/
theorem claim_C7_ellipse_transformed_containment {α : Type}
    [LinearOrderedField α] (e : Ellipse α) (m : Matrix3x2f α)
    (p : Point2f α) :
    (¬ m.is_invertible → ¬ e.contains_point_transformed m p) ∧
    (∀ mi, m.try_inverse = some mi →
      (e.contains_point_transformed m p ↔
        e.contains_point (p.mulMatrix mi))) ∧
    (∀ q : Point2f α, e.contains_point q ↔
      (q.x - e.center.x) ^ 2 / e.radius_x ^ 2 +
        (q.y - e.center.y) ^ 2 / e.radius_y ^ 2 ≤ 1) := by
  refine ⟨?_, ?_, ?_⟩
  · intro h
    have hnone : m.try_inverse = none :=
      (Matrix3x2f.try_inverse_eq_none_iff m).mpr h
    unfold Ellipse.contains_point_transformed
    rw [hnone]
    exact not_false
  · intro mi hmi
    unfold Ellipse.contains_point_transformed
    rw [hmi]
  · intro q
    unfold Ellipse.contains_point
    rw [pow_two, pow_two, pow_two, pow_two]

/-- C7 witness: with the zero matrix (determinant `0`, not invertible),
`contains_point_transformed` of the unit circle at the origin is false. -/
theorem claim_C7_ellipse_transformed_containment_witness :
    ¬ (⟨0, 0, 0, 0, 0, 0⟩ : Matrix3x2f ℚ).is_invertible ∧
    ¬ (⟨⟨0, 0⟩, 1, 1⟩ : Ellipse ℚ).contains_point_transformed
        (⟨0, 0, 0, 0, 0, 0⟩ : Matrix3x2f ℚ) ⟨0, 0⟩ := by
  have h : ¬ (⟨0, 0, 0, 0, 0, 0⟩ : Matrix3x2f ℚ).is_invertible := by
    rw [Matrix3x2f.is_invertible, Matrix3x2f.det_shows_invertible]
    norm_num [f32_EPSILON, Matrix3x2f.determinant]
  exact ⟨h, (claim_C7_ellipse_transformed_containment _ _ _).1 h⟩

/-- C8: for the rounded rectangle with rect `(0, 0, 2, 2)` and corner radii
`(0.5, 0.25)`: the four outer corners pass the crude test but not the
precise test; the four points `(0.25, 0.125)`-style pass the precise test;
the four points `(0.125, 0.0625)`-style pass the crude test but not the
precise test. -/
theorem claim_C8_rounded_rect_test_points :
    (⟨⟨0, 0, 2, 2⟩, 1/2, 1/4⟩ : RoundedRect ℚ).contains_point_crude ⟨0, 0⟩ ∧
    (⟨⟨0, 0, 2, 2⟩, 1/2, 1/4⟩ : RoundedRect ℚ).contains_point_crude ⟨0, 2⟩ ∧
    (⟨⟨0, 0, 2, 2⟩, 1/2, 1/4⟩ : RoundedRect ℚ).contains_point_crude ⟨2, 0⟩ ∧
    (⟨⟨0, 0, 2, 2⟩, 1/2, 1/4⟩ : RoundedRect ℚ).contains_point_crude ⟨2, 2⟩ ∧
    ¬ (⟨⟨0, 0, 2, 2⟩, 1/2, 1/4⟩ : RoundedRect ℚ).contains_point ⟨0, 0⟩ ∧
    ¬ (⟨⟨0, 0, 2, 2⟩, 1/2, 1/4⟩ : RoundedRect ℚ).contains_point ⟨0, 2⟩ ∧
    ¬ (⟨⟨0, 0, 2, 2⟩, 1/2, 1/4⟩ : RoundedRect ℚ).contains_point ⟨2, 0⟩ ∧
    ¬ (⟨⟨0, 0, 2, 2⟩, 1/2, 1/4⟩ : RoundedRect ℚ).contains_point ⟨2, 2⟩ ∧
    (⟨⟨0, 0, 2, 2⟩, 1/2, 1/4⟩ : RoundedRect ℚ).contains_point ⟨1/4, 1/8⟩ ∧
    (⟨⟨0, 0, 2, 2⟩, 1/2, 1/4⟩ : RoundedRect ℚ).contains_point ⟨1/4, 15/8⟩ ∧
    (⟨⟨0, 0, 2, 2⟩, 1/2, 1/4⟩ : RoundedRect ℚ).contains_point ⟨7/4, 1/8⟩ ∧
    (⟨⟨0, 0, 2, 2⟩, 1/2, 1/4⟩ : RoundedRect ℚ).contains_point ⟨7/4, 15/8⟩ ∧
    (⟨⟨0, 0, 2, 2⟩, 1/2, 1/4⟩ : RoundedRect ℚ).contains_point_crude
      ⟨1/8, 1/16⟩ ∧
    (⟨⟨0, 0, 2, 2⟩, 1/2, 1/4⟩ : RoundedRect ℚ).contains_point_crude
      ⟨1/8, 31/16⟩ ∧
    (⟨⟨0, 0, 2, 2⟩, 1/2, 1/4⟩ : RoundedRect ℚ).contains_point_crude
      ⟨15/8, 1/16⟩ ∧
    (⟨⟨0, 0, 2, 2⟩, 1/2, 1/4⟩ : RoundedRect ℚ).contains_point_crude
      ⟨15/8, 31/16⟩ ∧
    ¬ (⟨⟨0, 0, 2, 2⟩, 1/2, 1/4⟩ : RoundedRect ℚ).contains_point
      ⟨1/8, 1/16⟩ ∧
    ¬ (⟨⟨0, 0, 2, 2⟩, 1/2, 1/4⟩ : RoundedRect ℚ).contains_point
      ⟨1/8, 31/16⟩ ∧
    ¬ (⟨⟨0, 0, 2, 2⟩, 1/2, 1/4⟩ : RoundedRect ℚ).contains_point
      ⟨15/8, 1/16⟩ ∧
    ¬ (⟨⟨0, 0, 2, 2⟩, 1/2, 1/4⟩ : RoundedRect ℚ).contains_point
      ⟨15/8, 31/16⟩ := by
  refine ⟨?_, ?_, ?_, ?_, ?_, ?_, ?_, ?_, ?_, ?_, ?_, ?_, ?_, ?_, ?_, ?_,
    ?_, ?_, ?_, ?_⟩ <;>
    norm_num [RoundedRect.contains_point, RoundedRect.contains_point_crude,
      RoundedRect.rpoint, RoundedRect.corner_ellipse, Rectf.contains_point,
      Rectf.center, Rectf.corner, Ellipse.contains_point, Point2f.add,
      Point2f.sub, Vector2f.abs, abs]

/-- C1: refuted as stated; the `x` translation term of
`Matrix3x2f::rotation` is `cx - cos*cx - sin*cy` (a sign slip: keeping the
center fixed requires `cx - cos*cx + sin*cy`), so the rotation matrix does
not map its center to itself: with `angle = π/2` and `center = (0, 1)` the
center is mapped to `(-2, 1)`. -/
theorem claim_C1_rotation_center_not_fixed :
    Point2f.mulMatrix ⟨0, 1⟩ (Matrix3x2f.rotation (Real.pi / 2) ⟨0, 1⟩) =
      (⟨-2, 1⟩ : Point2f ℝ) ∧
    (⟨-2, 1⟩ : Point2f ℝ) ≠ (⟨0, 1⟩ : Point2f ℝ) := by
  constructor
  · unfold Point2f.mulMatrix Matrix3x2f.rotation
    rw [Real.cos_pi_div_two, Real.sin_pi_div_two]
    simp only [Point2f.mk.injEq]
    norm_num
  · simp only [ne_eq, Point2f.mk.injEq]
    norm_num

/-- C5: counterexample to the claim over every angle: at scaling `(1, 1)`,
`theta = 2π` and translation `(0, 0)`, `decompose` recovers rotation `0`,
which is not within `1e-5` of `2π`. -/
theorem claim_C5_theta_not_recovered_at_two_pi :
    (Matrix3x2f.compose ⟨1, 1⟩ (2 * Real.pi) ⟨0, 0⟩).decompose.rotation =
      0 ∧
    ¬ |(Matrix3x2f.compose ⟨1, 1⟩ (2 * Real.pi) ⟨0, 0⟩).decompose.rotation -
        2 * Real.pi| ≤ 1e-5 := by
  have h0 : (Matrix3x2f.compose ⟨1, 1⟩
      (2 * Real.pi) ⟨0, 0⟩).decompose.rotation = 0 := by
    show atan2 (1 * Real.sin (2 * Real.pi)) (1 * Real.cos (2 * Real.pi)) = 0
    rw [Real.sin_two_pi, Real.cos_two_pi, atan2]
    have h1 : ((↑(1 * 1 : ℝ) + ↑(1 * 0 : ℝ) * Complex.I) : ℂ) = 1 := by
      norm_num
    rw [h1, Complex.arg_one]
  refine ⟨h0, ?_⟩
  rw [h0, not_le, zero_sub, abs_neg,
    abs_of_pos (by positivity : (0:ℝ) < 2 * Real.pi)]
  have h6 : (1e-5 : ℝ) < 6 := by norm_num
  have hπ := Real.pi_gt_three
  linarith

/-- C5 (amended): for scaling components `sx, sy > 0`, any translation,
and rotation angle `theta` restricted to `(-π, π]` (the range of `atan2`),
`compose(...).decompose()` recovers the scaling, rotation and translation
exactly, and recomposing the decomposition reproduces the original matrix
exactly (hence within `1e-5`). -/
theorem claim_C5_compose_decompose_roundtrip (s : Vector2f ℝ) (θ : ℝ)
    (t : Vector2f ℝ) (hx : 0 < s.x) (hy : 0 < s.y)
    (hθ : θ ∈ Set.Ioc (-Real.pi) Real.pi) :
    (Matrix3x2f.compose s θ t).decompose = ⟨s, θ, t⟩ ∧
    Matrix3x2f.compose (Matrix3x2f.compose s θ t).decompose.scaling
      ((Matrix3x2f.compose s θ t).decompose.rotation)
      ((Matrix3x2f.compose s θ t).decompose.translation) =
      Matrix3x2f.compose s θ t := by
  obtain ⟨sx, sy⟩ := s
  obtain ⟨tx, ty⟩ := t
  have hx' : (0:ℝ) < sx := hx
  have hy' : (0:ℝ) < sy := hy
  have hdec : (Matrix3x2f.compose ⟨sx, sy⟩ θ ⟨tx, ty⟩).decompose =
      ⟨⟨sx, sy⟩, θ, ⟨tx, ty⟩⟩ := by
    unfold Matrix3x2f.compose Matrix3x2f.decompose
    congr 1
    · congr 1
      · have h1 : sx * Real.cos θ * (sx * Real.cos θ) +
            sx * -Real.sin θ * (sx * -Real.sin θ) = sx ^ 2 := by
          linear_combination sx ^ 2 * Real.sin_sq_add_cos_sq θ
        rw [h1, Real.sqrt_sq hx'.le]
      · have h2 : sy * Real.sin θ * (sy * Real.sin θ) +
            sy * Real.cos θ * (sy * Real.cos θ) = sy ^ 2 := by
          linear_combination sy ^ 2 * Real.sin_sq_add_cos_sq θ
        rw [h2, Real.sqrt_sq hy'.le]
    · show atan2 (sy * Real.sin θ) (sy * Real.cos θ) = θ
      rw [atan2]
      have harg : ((↑(sy * Real.cos θ) + ↑(sy * Real.sin θ) * Complex.I) :
            ℂ) =
          (sy : ℂ) * (Complex.cos θ + Complex.sin θ * Complex.I) := by
        simp only [Complex.ofReal_mul, Complex.ofReal_cos, Complex.ofReal_sin]
        ring
      rw [harg, Complex.arg_real_mul _ hy', Complex.arg_cos_add_sin_mul_I hθ]
  exact ⟨hdec, by rw [hdec]⟩

/-- C5 witness: at scaling `(1, 1)`, angle `0 ∈ (-π, π]` and translation
`(0, 0)`, the hypotheses hold and the decomposition recovers the
parameters exactly. -/
theorem claim_C5_compose_decompose_roundtrip_witness :
    (0 : ℝ) < 1 ∧ (0 : ℝ) ∈ Set.Ioc (-Real.pi) Real.pi ∧
    (Matrix3x2f.compose ⟨1, 1⟩ 0 ⟨0, 0⟩).decompose = ⟨⟨1, 1⟩, 0, ⟨0, 0⟩⟩ := by
  have h1 : (0:ℝ) < 1 := one_pos
  have h2 : (0 : ℝ) ∈ Set.Ioc (-Real.pi) Real.pi :=
    ⟨neg_lt_zero.mpr Real.pi_pos, Real.pi_pos.le⟩
  exact ⟨h1, h2,
    (claim_C5_compose_decompose_roundtrip ⟨1, 1⟩ 0 ⟨0, 0⟩ h1 h1 h2).1⟩

/-- C10: for every matrix, both components of `decompose().scaling` are
nonnegative (each is the square root of a sum of squares); consequently a
matrix composed with a negative x-scale never decomposes back to that
negative scaling component, so the compose/decompose round-trip cannot
hold for negative scales. -/
theorem claim_C10_decompose_scaling_nonneg (m : Matrix3x2f ℝ) :
    0 ≤ m.decompose.scaling.x ∧ 0 ≤ m.decompose.scaling.y ∧
    ∀ (s : Vector2f ℝ) (θ : ℝ) (t : Vector2f ℝ), s.x < 0 →
      (Matrix3x2f.compose s θ t).decompose.scaling.x ≠ s.x := by
  refine ⟨Real.sqrt_nonneg _, Real.sqrt_nonneg _, ?_⟩
  intro s θ t hs heq
  have h0 : (0:ℝ) ≤ (Matrix3x2f.compose s θ t).decompose.scaling.x :=
    Real.sqrt_nonneg _
  rw [heq] at h0
  exact absurd h0 (not_le.mpr hs)

/-- C10 witness: composing with scaling `(-1, 1)` and decomposing does not
return the `-1` scaling component. -/
theorem claim_C10_decompose_scaling_nonneg_witness :
    ((⟨-1, 1⟩ : Vector2f ℝ).x < 0) ∧
    (Matrix3x2f.compose ⟨-1, 1⟩ 0 ⟨0, 0⟩).decompose.scaling.x ≠
      (⟨-1, 1⟩ : Vector2f ℝ).x := by
  have hs : (⟨-1, 1⟩ : Vector2f ℝ).x < 0 := by
    show (-1 : ℝ) < 0
    norm_num
  exact ⟨hs, (claim_C10_decompose_scaling_nonneg
    (Matrix3x2f.compose ⟨-1, 1⟩ 0 ⟨0, 0⟩)).2.2 ⟨-1, 1⟩ 0 ⟨0, 0⟩ hs⟩
